import Mathlib

/-!
Shallow embedding of `src/components/graph/state/menu.ts` (the two-level
context-menu controller of muxy/graph-editor), together with theorems
checking the specification's claims about it.

Pixel coordinates are modelled by integers: every coordinate the menu
manipulates (anchor, offsets, row heights, buffer margins, the clock in
milliseconds) is integral in the source, which only adds, subtracts,
multiplies and compares them.  The one exception is the barycentric test,
where the source divides; its weights are modelled as exact rationals,
which agrees with real-number division on the non-degenerate triangles the
menu constructs.  The mutable `Menu` class becomes a `Menu` record and each
method a function from the old state (plus the clock reading that the
source obtains from `new Date().valueOf()`) to the new state.
-/

/-- 2D pixel vector (`Vec2` from `@/shared/math`). -/
structure Vec2 where
  x : Int
  y : Int
deriving DecidableEq, Repr

/-- `add` from `@/shared/math`. -/
def add (a b : Vec2) : Vec2 := ⟨a.x + b.x, a.y + b.y⟩

/-- `sub` from `@/shared/math`. -/
def sub (a b : Vec2) : Vec2 := ⟨a.x - b.x, a.y - b.y⟩

/-- `MenuOptionType` enum. -/
inductive MenuOptionType : Type where
  | Default
  | Header
  | Spacer
deriving DecidableEq, Repr

/-- `MenuOption` interface.  `children` makes it a rose tree; the source
restricts the tree to two levels but the type does not. -/
inductive MenuOption : Type where
  | mk (type : MenuOptionType) (label action shortcut : String)
      (children : List MenuOption) (computedOffset : Int) (enabled : Bool) :
      MenuOption

mutual

def MenuOption.decEq : (a b : MenuOption) → Decidable (a = b)
  | .mk t1 l1 a1 s1 c1 o1 e1, .mk t2 l2 a2 s2 c2 o2 e2 =>
    if h1 : t1 = t2 then
      if h2 : l1 = l2 then
        if h3 : a1 = a2 then
          if h4 : s1 = s2 then
            if h5 : o1 = o2 then
              if h6 : e1 = e2 then
                match MenuOption.decEqList c1 c2 with
                | isTrue h7 => isTrue (by rw [h1, h2, h3, h4, h5, h6, h7])
                | isFalse h7 => isFalse (by intro h; injection h; contradiction)
              else isFalse (by intro h; injection h; contradiction)
            else isFalse (by intro h; injection h; contradiction)
          else isFalse (by intro h; injection h; contradiction)
        else isFalse (by intro h; injection h; contradiction)
      else isFalse (by intro h; injection h; contradiction)
    else isFalse (by intro h; injection h; contradiction)
  termination_by structural a _ => a

def MenuOption.decEqList : (a b : List MenuOption) → Decidable (a = b)
  | [], [] => isTrue rfl
  | [], _ :: _ => isFalse (by intro h; exact List.noConfusion h)
  | _ :: _, [] => isFalse (by intro h; exact List.noConfusion h)
  | x :: xs, y :: ys =>
    match MenuOption.decEq x y, MenuOption.decEqList xs ys with
    | isTrue h1, isTrue h2 => isTrue (by rw [h1, h2])
    | isFalse h1, _ => isFalse (by intro h; injection h; contradiction)
    | _, isFalse h2 => isFalse (by intro h; injection h; contradiction)
  termination_by structural a _ => a

end

instance : DecidableEq MenuOption := MenuOption.decEq

def MenuOption.type : MenuOption → MenuOptionType
  | .mk t _ _ _ _ _ _ => t

def MenuOption.label : MenuOption → String
  | .mk _ l _ _ _ _ _ => l

def MenuOption.action : MenuOption → String
  | .mk _ _ a _ _ _ _ => a

def MenuOption.shortcut : MenuOption → String
  | .mk _ _ _ s _ _ _ => s

def MenuOption.children : MenuOption → List MenuOption
  | .mk _ _ _ _ c _ _ => c

def MenuOption.computedOffset : MenuOption → Int
  | .mk _ _ _ _ _ o _ => o

def MenuOption.enabled : MenuOption → Bool
  | .mk _ _ _ _ _ _ e => e

instance : Inhabited MenuOption :=
  ⟨.mk .Default "" "" "" [] 0 true⟩

/-- Modelled from the spec: `Sizes.MenuWidth`, the fixed menu column width
constant imported from the external rendering sizes module (a positive
pixel constant; its exact value is external to this core). -/
def MenuWidth : Int := 200

/-- `Menu.offsetOf`: a Spacer row is 2px tall, every other row 20px. -/
def offsetOf (option : MenuOption) : Int :=
  match option.type with
  | .Spacer => 2
  | _ => 20

/-- `Menu.size(options)`: fixed column width, height the sum of row heights. -/
def menuSize (options : List MenuOption) : Vec2 :=
  ⟨MenuWidth, options.foldl (fun h v => h + offsetOf v) 0⟩

mutual

/-- The per-option part of `Menu.computeOffsetForOptions`, made functional:
store the running height in `computedOffset` and recurse into children with
a fresh running height of 12 (the source skips the recursive call when
`children` is empty, which is observationally the same as recursing on
`[]`). -/
def layoutOption : Int → MenuOption → MenuOption
  | height, .mk t l a s ch _co en =>
      .mk t l a s (computeOffsetAux 12 ch) height en
  termination_by structural _ v => v

/-- The list walk of `Menu.computeOffsetForOptions`: assign the running
height to each option, then advance it by the option's row height. -/
def computeOffsetAux : Int → List MenuOption → List MenuOption
  | _, [] => []
  | height, v :: rest =>
      layoutOption height v :: computeOffsetAux (height + offsetOf v) rest
  termination_by structural _ l => l

end

/-- `Menu.computeOffsetForOptions` (the running height starts at 12). -/
def computeOffsetForOptions (options : List MenuOption) : List MenuOption :=
  computeOffsetAux 12 options

/-- `Menu.pointInBox`: half-open axis-aligned box test. -/
def pointInBox (point upperLeft size : Vec2) : Bool :=
  let delta := sub point upperLeft
  delta.x < size.x && delta.y < size.y && delta.x ≥ 0 && delta.y ≥ 0

/-- `Menu.baycentric` (sic): barycentric weights `[u, v, w]` of `point` with
respect to a triangle, by the two-edge-vector projection formula.  The
source computes in JS numbers; the two quotients are modelled as exact
rationals.  Rational division is total (`q / 0 = 0`); the menu only ever
supplies non-degenerate triangles, where this agrees with real division. -/
def baycentric (point : Vec2) (triangle : List Vec2) : List ℚ :=
  let dot := fun (a b : Vec2) => a.x * b.x + a.y * b.y
  let t0 := triangle.getD 0 ⟨0, 0⟩
  let t1 := triangle.getD 1 ⟨0, 0⟩
  let t2 := triangle.getD 2 ⟨0, 0⟩
  let v0 := sub t1 t0
  let v1 := sub t2 t0
  let v2 := sub point t0
  let d00 := dot v0 v0
  let d01 := dot v0 v1
  let d11 := dot v1 v1
  let d20 := dot v2 v0
  let d21 := dot v2 v1
  let denom := d00 * d11 - d01 * d01
  let v := ((d11 * d20 - d01 * d21 : Int) : ℚ) / (denom : ℚ)
  let w := ((d00 * d21 - d01 * d20 : Int) : ℚ) / (denom : ℚ)
  let u := 1 - v - w
  [u, v, w]

/-- `Menu.pointInTriangle`: all three barycentric weights non-negative. -/
def pointInTriangle (point : Vec2) (triangle : List Vec2) : Bool :=
  let b := baycentric point triangle
  b.getD 0 0 ≥ 0 && b.getD 1 0 ≥ 0 && b.getD 2 0 ≥ 0

/-- The upper buffer triangle of the sticky-submenu fast path
(`menu.ts` lines 300–304): anchored at `upperLeft`, reaching the far menu
edge and 15px above it. -/
def upperBufferTriangle (upperLeft size : Vec2) : List Vec2 :=
  [upperLeft, add upperLeft ⟨size.x, 0⟩, add upperLeft ⟨size.x, -15⟩]

/-- The lower buffer triangle of the sticky-submenu fast path
(`menu.ts` lines 306–311): anchored at `lowerLeft`, reaching the far menu
edge and `childSize.y` below it. -/
def lowerBufferTriangle (lowerLeft size childSize : Vec2) : List Vec2 :=
  [lowerLeft, add lowerLeft ⟨size.x, childSize.y⟩, add lowerLeft ⟨size.x, 0⟩]

/-- Modelled from the spec: the opaque action identifier strings
(`StateActionKeys`) live in an external actions module; only their use as
opaque `actionId` payloads matters here. -/
def StateActionKeys.Copy : String := "copy"

def StateActionKeys.SetGuideFrame : String := "setGuideFrame"

def StateActionKeys.SetGuideValue : String := "setGuideValue"

def StateActionKeys.HandleToLinear : String := "handleToLinear"

def StateActionKeys.HandleToBeizer : String := "handleToBeizer"

def StateActionKeys.InsertKeyframe : String := "insertKeyframe"

def StateActionKeys.InsertKeyframeAllCurves : String := "insertKeyframeAllCurves"

def StateActionKeys.SnapFrame : String := "snapFrame"

def StateActionKeys.SnapValue : String := "snapValue"

/-- `Menu.simpleOption`.  The source scans `KeyboardActions.shortcuts` for a
key mapped to `action`; that external lookup is abstracted as `sc`. -/
def simpleOption (sc : String → String) (label action : String)
    (enabled : Bool) (children : List MenuOption) : MenuOption :=
  .mk .Default label action (sc action) children 0 enabled

/-- `Menu.spacer`. -/
def spacer : MenuOption :=
  .mk .Spacer "" "" "" [] 0 true

/-- `Menu.header`. -/
def header (name : String) : MenuOption :=
  .mk .Header name "" "" [] 0 true

/-- The option list built by `Menu.rebuildOptions`, already laid out (the
source runs `computeOffsetForOptions` on it before publishing).
`hasSelectedPoint` abstracts `parent.selected && parent.selected.point`
(the source also computes `hasSelectedCurve` but never uses it). -/
def rebuiltOptions (sc : String → String) (hasSelectedPoint : Bool) :
    List MenuOption :=
  computeOffsetForOptions
    [header "Curve Context Menu",
      spacer,
      simpleOption sc "Copy" StateActionKeys.Copy hasSelectedPoint [],
      spacer,
      simpleOption sc "Move frame guide" StateActionKeys.SetGuideFrame true [],
      simpleOption sc "Move value guide" StateActionKeys.SetGuideValue true [],
      spacer,
      simpleOption sc "Handle Type" "" hasSelectedPoint
        [simpleOption sc "Linear" StateActionKeys.HandleToLinear true [],
          simpleOption sc "Beizer" StateActionKeys.HandleToBeizer true []],
      simpleOption sc "Insert keyframe" StateActionKeys.InsertKeyframe true [],
      simpleOption sc "Insert keyframe in all curves"
        StateActionKeys.InsertKeyframeAllCurves true [],
      simpleOption sc "Snap" "" hasSelectedPoint
        [header "Snap ...",
          spacer,
          simpleOption sc "To selected frame" StateActionKeys.SnapFrame true [],
          simpleOption sc "Value to guide" StateActionKeys.SnapValue true []]]

/-- The `Menu` class state.  `parent` (the host editor state) is out of
scope; methods that read the clock take `now` explicitly. -/
structure Menu where
  position : Vec2
  mousePosition : Vec2
  mousePositionOnOpen : Vec2
  tree : List MenuOption
  visible : Bool
  optionPath : List MenuOption
  disableBufferTriangles : Bool
  enteredRootElementTimestamp : Int
deriving DecidableEq

/-- `Menu.hide`. -/
def Menu.hide (m : Menu) : Menu :=
  { m with visible := false }

/-- `Menu.setOptionTree`. -/
def Menu.setOptionTree (m : Menu) (options : List MenuOption) : Menu :=
  { m with tree := options }

/-- `Menu.show`: rebuild the option tree from the host context and become
visible. -/
def Menu.show (m : Menu) (sc : String → String) (hasSelectedPoint : Bool) :
    Menu :=
  { m with tree := rebuiltOptions sc hasSelectedPoint, visible := true }

/-- The root-row box test of the full re-scan (`menu.ts` lines 355–364):
row box of root option `v` at the menu anchor `pos`. -/
def inRootRow (mouse pos size : Vec2) (v : MenuOption) : Bool :=
  pointInBox mouse ⟨pos.x, pos.y + v.computedOffset - 10⟩ ⟨size.x, offsetOf v⟩

/-- The child-row box test (`menu.ts` lines 334–339 and 389–394): row box of
child `c` of root `v`, one menu column to the right. -/
def inChildRow (mouse pos size childSize : Vec2) (v c : MenuOption) : Bool :=
  pointInBox mouse
    (add ⟨pos.x, pos.y + v.computedOffset - 10⟩ ⟨size.x, c.computedOffset - 10⟩)
    ⟨childSize.x, offsetOf c⟩

/-- One iteration of the inner `v.children.forEach` of the full re-scan
(`menu.ts` lines 388–400), threading `(result, disableBufferTriangles,
enteredRootElementTimestamp)`. -/
def childScanStep (mouse pos size childSize : Vec2) (v : MenuOption)
    (acc : List MenuOption × Bool × Int) (c : MenuOption) :
    List MenuOption × Bool × Int :=
  if inChildRow mouse pos size childSize v c then
    (acc.1 ++ [v, c], true, acc.2.2)
  else acc

/-- One iteration of the outer `this.tree.options.forEach` of the full
re-scan (`menu.ts` lines 354–401).  `prevHead` is `this.optionPath[0]` of
the path from before the scan (for an empty previous path the JS
comparison `v != undefined` is true, hence the `Option` comparison). -/
def rootScanStep (mouse pos size : Vec2) (prevHead : Option MenuOption)
    (now : Int) (acc : List MenuOption × Bool × Int) (v : MenuOption) :
    List MenuOption × Bool × Int :=
  let acc1 :=
    if inRootRow mouse pos size v then
      let ts := if acc.2.1 = true ∧ prevHead ≠ some v then now else acc.2.2
      let dbt := if now - ts > 500 then false else acc.2.1
      (acc.1 ++ [v], dbt, ts)
    else acc
  v.children.foldl (childScanStep mouse pos size (menuSize v.children) v) acc1

/-- The full re-scan (`menu.ts` lines 354–403): scan every root row and
every child row, updating the hysteresis timer and buffer flag. -/
def Menu.fullScan (m : Menu) (now : Int) : List MenuOption × Menu :=
  let size := menuSize m.tree
  let res := m.tree.foldl
    (rootScanStep m.mousePosition m.position size m.optionPath.head? now)
    ([], m.disableBufferTriangles, m.enteredRootElementTimestamp)
  (res.1,
    { m with
      disableBufferTriangles := res.2.1
      enteredRootElementTimestamp := res.2.2 })

/-- `Menu.optionPathUnderMouse`: sticky-submenu fast path when the previous
path's root has children, otherwise (or on fall-through) the full re-scan.
Returns the computed path and the updated state (the caller stores the
path into `optionPath`). -/
def Menu.optionPathUnderMouse (m : Menu) (now : Int) :
    List MenuOption × Menu :=
  let size := menuSize m.tree
  match m.optionPath with
  | [] => m.fullScan now
  | root :: _ =>
    if root.children.isEmpty then m.fullScan now
    else
      let childSize := menuSize root.children
      let inRootOption := pointInBox m.mousePosition
        ⟨m.position.x, m.position.y + root.computedOffset⟩
        ⟨size.x, offsetOf root⟩
      let inChildMenu := pointInBox m.mousePosition
        (add m.position ⟨size.x, root.computedOffset - 10⟩) childSize
      let upperLeft : Vec2 :=
        ⟨m.position.x, m.position.y + root.computedOffset - 10⟩
      let inUpperRaw := pointInTriangle m.mousePosition
        (upperBufferTriangle upperLeft size)
      let lowerLeft := add upperLeft ⟨0, offsetOf root⟩
      let inLowerRaw := pointInTriangle m.mousePosition
        (lowerBufferTriangle lowerLeft size childSize)
      let inUpperBufferTriangle :=
        if m.disableBufferTriangles then false else inUpperRaw
      let inLowerBufferTriangle :=
        if m.disableBufferTriangles then false else inLowerRaw
      let inChildBuffer := pointInBox m.mousePosition
        (add m.position ⟨size.x - 15, root.computedOffset - 35⟩)
        (add childSize ⟨30, 50⟩)
      if inRootOption || inChildMenu || inUpperBufferTriangle ||
          inLowerBufferTriangle || inChildBuffer then
        if inChildMenu then
          (root.children.foldl
            (fun acc c =>
              if inChildRow m.mousePosition m.position size childSize root c
              then acc ++ [root, c] else acc)
            [],
            { m with disableBufferTriangles := true })
        else ([root], m)
      else m.fullScan now

/-- `Menu.setMousePosition`. -/
def Menu.setMousePosition (m : Menu) (v : Vec2) (now : Int) : Menu :=
  let m1 := { m with mousePosition := v }
  if !m1.visible then { m1 with optionPath := [] }
  else
    let pr := m1.optionPathUnderMouse now
    let m2 := { pr.2 with optionPath := pr.1 }
    if pr.1.length == 0 then
      if !pointInBox m2.mousePosition (add m2.position ⟨-40, -40⟩)
          (add (menuSize m2.tree) ⟨80, 150⟩) then
        m2.hide
      else m2
    else m2

/-- `Menu.click`.  When the path has length 1 the source also checks
`this.optionPath[0] == selected` (reference equality); for a one-element
array the first and last element are the same object, so the check is
always true and is omitted here. -/
def Menu.click (m : Menu) (v : Vec2) (now : Int) : String × Menu :=
  if m.visible then
    let m1 := { m with mousePosition := v }
    let pr := m1.optionPathUnderMouse now
    let m2 := { pr.2 with optionPath := pr.1 }
    if pr.1.length ≠ 0 then
      let selected := pr.1.getLastD default
      if (pr.1.length == 1 && (pr.1.headD default).children.isEmpty) ||
          pr.1.length == 2 then
        let m3 := m2.hide
        if selected.enabled then (selected.action, m3) else ("", m3)
      else ("", m2)
    else ("", m2)
  else ("", m)

/-- The click-resolution condition of `Menu.click`: a path of length 1 whose
root is childless, or a path of length 2. -/
def validResolved (p : List MenuOption) : Bool :=
  (p.length == 1 && (p.headD default).children.isEmpty) || p.length == 2

/-- Executable maximum on `Int`. -/
def qmax (a b : Int) : Int := if a ≤ b then b else a

/-- Executable minimum on `Int`. -/
def qmin (a b : Int) : Int := if a ≤ b then a else b

/-- Horizontal extent (max x minus min x) of a triangle's vertex list. -/
def triXSpan (t : List Vec2) : Int :=
  let xs := t.map Vec2.x
  xs.foldl qmax (xs.headD 0) - xs.foldl qmin (xs.headD 0)

/-- Vertical extent (max y minus min y) of a triangle's vertex list. -/
def triYSpan (t : List Vec2) : Int :=
  let ys := t.map Vec2.y
  ys.foldl qmax (ys.headD 0) - ys.foldl qmin (ys.headD 0)

/-- Convenience constructor for concrete menu states used in witnesses. -/
def mkMenu (pos mouse : Vec2) (tree : List MenuOption) (vis : Bool)
    (path : List MenuOption) (dbt : Bool) (ts : Int) : Menu :=
  ⟨pos, mouse, ⟨0, 0⟩, tree, vis, path, dbt, ts⟩

theorem offsetOf_layoutOption (h9 : Int) (v : MenuOption) :
    offsetOf (layoutOption h9 v) = offsetOf v := by
  cases v
  rfl

mutual

theorem layoutOption_idem : (h9 : Int) → (v : MenuOption) →
    layoutOption h9 (layoutOption h9 v) = layoutOption h9 v
  | h9, .mk t lb a s ch co en => by
      simp only [layoutOption]
      rw [layout_idem_aux 12 ch]
  termination_by structural _ v => v

theorem layout_idem_aux : (h9 : Int) → (l : List MenuOption) →
    computeOffsetAux h9 (computeOffsetAux h9 l) = computeOffsetAux h9 l
  | _, [] => by simp [computeOffsetAux]
  | h9, v :: rest => by
      simp only [computeOffsetAux]
      rw [layoutOption_idem h9 v, offsetOf_layoutOption,
        layout_idem_aux _ rest]
  termination_by structural _ l => l

end

/-- C8: running the layout pass twice in succession on the same option tree
with no mutation in between yields exactly the tree a single run yields, so
every option at both levels has identical `computedOffset` values. -/
theorem claim_C8_layout_idempotent (options : List MenuOption) :
    computeOffsetForOptions (computeOffsetForOptions options) =
      computeOffsetForOptions options :=
  layout_idem_aux 12 options

/-- A concrete menu state with a non-empty selection path. -/
def menuWithPath : Menu :=
  mkMenu ⟨0, 0⟩ ⟨0, 0⟩ [] true [header "Curve Context Menu"] true 0

/-- C3 counterexample: `hide()` only sets `visible` to false; on a state
whose selection path is non-empty the path is still non-empty afterwards,
refuting the claim that `optionPath` is the empty sequence after `hide()`. -/
theorem claim_C3_counterexample :
    (menuWithPath.hide).visible = false ∧
      ¬(menuWithPath.hide).optionPath = [] := by
  constructor
  · rfl
  · intro h
    simp [menuWithPath, mkMenu, Menu.hide] at h

/-- C3 amended: `hide()` sets `visible` to false and changes nothing else;
in particular the selection path is left exactly as it was (it is cleared
only by the next `setMousePosition` while the menu is invisible). -/
theorem claim_C3_amended (m : Menu) :
    (m.hide).visible = false ∧ (m.hide).optionPath = m.optionPath ∧
      (m.hide).position = m.position ∧
      (m.hide).mousePosition = m.mousePosition ∧
      (m.hide).mousePositionOnOpen = m.mousePositionOnOpen ∧
      (m.hide).tree = m.tree ∧
      (m.hide).disableBufferTriangles = m.disableBufferTriangles ∧
      (m.hide).enteredRootElementTimestamp = m.enteredRootElementTimestamp :=
  ⟨rfl, rfl, rfl, rfl, rfl, rfl, rfl, rfl⟩

/-- C5: for a non-empty box size, `pointInBox` holds exactly when the point
lies in the half-open box `[0, size.x) × [0, size.y)` relative to the
top-left corner, and every point on the lower or right boundary is
rejected. -/
theorem claim_C5_pointInBox (p tl s : Vec2) (hx : 0 < s.x) (hy : 0 < s.y) :
    (pointInBox p tl s = true ↔
      (0 ≤ p.x - tl.x ∧ p.x - tl.x < s.x ∧ 0 ≤ p.y - tl.y ∧ p.y - tl.y < s.y)) ∧
    ((p.x - tl.x = s.x ∨ p.y - tl.y = s.y) → pointInBox p tl s = false) := by
  constructor
  · simp only [pointInBox, sub, Bool.and_eq_true, decide_eq_true_eq,
      ge_iff_le]
    tauto
  · intro h
    rcases h with h | h <;> simp [pointInBox, sub, h]

/-- Witness for C5 at a concrete box and point. -/
theorem claim_C5_witness :
    (pointInBox ⟨3, 4⟩ ⟨1, 1⟩ ⟨10, 10⟩ = true ↔
      (0 ≤ (3 : Int) - 1 ∧ (3 : Int) - 1 < 10 ∧ 0 ≤ (4 : Int) - 1 ∧
        (4 : Int) - 1 < 10)) ∧
    (((3 : Int) - 1 = 10 ∨ (4 : Int) - 1 = 10) →
      pointInBox ⟨3, 4⟩ ⟨1, 1⟩ ⟨10, 10⟩ = false) :=
  claim_C5_pointInBox ⟨3, 4⟩ ⟨1, 1⟩ ⟨10, 10⟩ (by decide) (by decide)

/-- C9: a click while the menu is invisible returns the empty string and
changes no field of the state, whereas `setMousePosition` while invisible
still records the pointer position and clears the selection path. -/
theorem claim_C9_click_invisible_noop (m : Menu) (v : Vec2) (now : Int)
    (h : m.visible = false) :
    m.click v now = ("", m) ∧
      m.setMousePosition v now =
        { m with mousePosition := v, optionPath := [] } := by
  constructor
  · simp [Menu.click, h]
  · simp [Menu.setMousePosition, h]

/-- A concrete invisible menu state. -/
def mInvisible : Menu :=
  mkMenu ⟨0, 0⟩ ⟨5, 5⟩ [] false [header "x"] true 42

/-- Witness for C9 on a concrete invisible state. -/
theorem claim_C9_witness :
    mInvisible.click ⟨1, 2⟩ 7 = ("", mInvisible) ∧
      mInvisible.setMousePosition ⟨1, 2⟩ 7 =
        { mInvisible with mousePosition := ⟨1, 2⟩, optionPath := [] } :=
  claim_C9_click_invisible_noop mInvisible ⟨1, 2⟩ 7 rfl

/-- The "Snap" root option (index 10) of the rebuilt default tree. -/
def snapRoot : MenuOption :=
  (rebuiltOptions (fun _ => "") true).getD 10 default

/-- The `lowerLeft` corner the sticky fast path computes for the "Snap"
root when the menu is anchored at the origin. -/
def snapLowerLeft : Vec2 :=
  add ⟨0, 0 + snapRoot.computedOffset - 10⟩ ⟨0, offsetOf snapRoot⟩

/-- C4 counterexample: for the default tree's "Snap" submenu the lower
buffer triangle spans the submenu's full height (62px) vertically, not the
fixed ≈15px buffer height the claim asserts for both triangles. -/
theorem claim_C4_counterexample :
    triYSpan (lowerBufferTriangle snapLowerLeft
        (menuSize (rebuiltOptions (fun _ => "") true))
        (menuSize snapRoot.children)) = 62 ∧
      ¬triYSpan (lowerBufferTriangle snapLowerLeft
        (menuSize (rebuiltOptions (fun _ => "") true))
        (menuSize snapRoot.children)) = 15 := by
  constructor <;> decide

/-- C4 amended: both buffer triangles span the menu column width
horizontally; vertically the upper triangle spans the fixed 15px buffer
height but the lower triangle spans the submenu's full height
(`childSize.y`). -/
theorem claim_C4_amended (ul ll size childSize : Vec2) (hx : 0 ≤ size.x)
    (hy : 0 ≤ childSize.y) :
    triXSpan (upperBufferTriangle ul size) = size.x ∧
      triYSpan (upperBufferTriangle ul size) = 15 ∧
      triXSpan (lowerBufferTriangle ll size childSize) = size.x ∧
      triYSpan (lowerBufferTriangle ll size childSize) = childSize.y := by
  refine ⟨?_, ?_, ?_, ?_⟩ <;>
    simp [triXSpan, triYSpan, upperBufferTriangle, lowerBufferTriangle, add,
      qmax, qmin] <;>
    split_ifs <;> linarith

/-- Witness for C4 (amended) at concrete corners and sizes. -/
theorem claim_C4_witness :
    triXSpan (upperBufferTriangle ⟨1, 2⟩ ⟨200, 166⟩) = 200 ∧
      triYSpan (upperBufferTriangle ⟨1, 2⟩ ⟨200, 166⟩) = 15 ∧
      triXSpan (lowerBufferTriangle ⟨1, 30⟩ ⟨200, 166⟩ ⟨200, 62⟩) = 200 ∧
      triYSpan (lowerBufferTriangle ⟨1, 30⟩ ⟨200, 166⟩ ⟨200, 62⟩) = 62 :=
  claim_C4_amended ⟨1, 2⟩ ⟨1, 30⟩ ⟨200, 166⟩ ⟨200, 62⟩ (by decide) (by decide)

/-- The list the full re-scan builds, written directly: for each root in
order, its root-row hit (if any) followed by `[root, child]` for each of
its child-row hits. -/
def scanList (mouse pos size : Vec2) : List MenuOption → List MenuOption
  | [] => []
  | v :: rest =>
      (if inRootRow mouse pos size v then [v] else []) ++
        (v.children.filter
            (fun c => inChildRow mouse pos size (menuSize v.children) v c)).flatMap
          (fun c => [v, c]) ++
        scanList mouse pos size rest

theorem childFold_eq (mouse pos size childSize : Vec2) (v : MenuOption)
    (cs : List MenuOption) :
    ∀ acc : List MenuOption × Bool × Int,
      cs.foldl (childScanStep mouse pos size childSize v) acc =
        (acc.1 ++
            (cs.filter
                (fun c => inChildRow mouse pos size childSize v c)).flatMap
              (fun c => [v, c]),
          acc.2.1 || cs.any (fun c => inChildRow mouse pos size childSize v c),
          acc.2.2) := by
  induction cs with
  | nil => intro acc; simp
  | cons c cs ih =>
      intro acc
      simp only [List.foldl_cons, childScanStep]
      cases hb : inChildRow mouse pos size childSize v c with
      | false => simp [hb, ih]
      | true => simp [hb, ih]

theorem treeFold_fst (mouse pos size : Vec2) (prevHead : Option MenuOption)
    (now : Int) (l : List MenuOption) :
    ∀ acc : List MenuOption × Bool × Int,
      (l.foldl (rootScanStep mouse pos size prevHead now) acc).1 =
        acc.1 ++ scanList mouse pos size l := by
  induction l with
  | nil => intro acc; simp [scanList]
  | cons v rest ih =>
      intro acc
      simp only [List.foldl_cons, rootScanStep, childFold_eq, scanList]
      cases hb : inRootRow mouse pos size v with
      | false => simp [hb, ih]
      | true => simp [hb, ih]

theorem fullScan_fst (m : Menu) (now : Int) :
    (m.fullScan now).1 =
      scanList m.mousePosition m.position (menuSize m.tree) m.tree := by
  simp [Menu.fullScan, treeFold_fst]

theorem inRootRow_lt_right (mouse pos size : Vec2) (v : MenuOption)
    (h : inRootRow mouse pos size v = true) : mouse.x - pos.x < size.x := by
  simp only [inRootRow, pointInBox, sub, Bool.and_eq_true,
    decide_eq_true_eq] at h
  exact h.1.1.1

theorem inChildRow_ge_right (mouse pos size childSize : Vec2)
    (v c : MenuOption) (h : inChildRow mouse pos size childSize v c = true) :
    size.x ≤ mouse.x - pos.x := by
  simp only [inChildRow, pointInBox, sub, add, Bool.and_eq_true,
    decide_eq_true_eq, ge_iff_le] at h
  have h2 := h.1.2
  omega

theorem root_excludes_child (mouse pos size childSize : Vec2)
    (v w c : MenuOption) (h : inRootRow mouse pos size v = true) :
    inChildRow mouse pos size childSize w c = false := by
  cases hb : inChildRow mouse pos size childSize w c with
  | false => rfl
  | true =>
      have h1 := inRootRow_lt_right mouse pos size v h
      have h2 := inChildRow_ge_right mouse pos size childSize w c hb
      omega

theorem child_excludes_root (mouse pos size childSize : Vec2)
    (v w c : MenuOption) (h : inChildRow mouse pos size childSize w c = true) :
    inRootRow mouse pos size v = false := by
  cases hb : inRootRow mouse pos size v with
  | false => rfl
  | true =>
      have h1 := inRootRow_lt_right mouse pos size v hb
      have h2 := inChildRow_ge_right mouse pos size childSize w c h
      omega

theorem rootScanStep_skip (mouse pos size : Vec2)
    (prevHead : Option MenuOption) (now : Int)
    (acc : List MenuOption × Bool × Int) (v : MenuOption)
    (hr : inRootRow mouse pos size v = false)
    (hc : ∀ c ∈ v.children,
      inChildRow mouse pos size (menuSize v.children) v c = false) :
    rootScanStep mouse pos size prevHead now acc v = acc := by
  rcases acc with ⟨r, d, t⟩
  simp only [rootScanStep, hr, childFold_eq]
  rw [List.filter_eq_nil_iff.mpr (by intro c hcmem; simp [hc c hcmem])]
  rw [List.any_eq_false.mpr (by intro c hcmem; simp [hc c hcmem])]
  simp

theorem foldl_scan_skip (mouse pos size : Vec2)
    (prevHead : Option MenuOption) (now : Int) (l : List MenuOption)
    (h : ∀ w ∈ l, inRootRow mouse pos size w = false ∧
      ∀ c ∈ w.children,
        inChildRow mouse pos size (menuSize w.children) w c = false) :
    ∀ acc, l.foldl (rootScanStep mouse pos size prevHead now) acc = acc := by
  induction l with
  | nil => intro acc; simp
  | cons w rest ih =>
      intro acc
      simp only [List.foldl_cons]
      rw [rootScanStep_skip mouse pos size prevHead now acc w
        (h w (by simp)).1 (h w (by simp)).2]
      exact ih (fun w hw => h w (by simp [hw])) acc

theorem rootScanStep_hit (mouse pos size : Vec2)
    (prevHead : Option MenuOption) (now : Int)
    (acc : List MenuOption × Bool × Int) (v : MenuOption)
    (hr : inRootRow mouse pos size v = true)
    (hc : ∀ c ∈ v.children,
      inChildRow mouse pos size (menuSize v.children) v c = false) :
    rootScanStep mouse pos size prevHead now acc v =
      (acc.1 ++ [v],
        if now - (if acc.2.1 = true ∧ prevHead ≠ some v then now else acc.2.2)
            > 500 then false else acc.2.1,
        if acc.2.1 = true ∧ prevHead ≠ some v then now else acc.2.2) := by
  simp only [rootScanStep, hr, childFold_eq]
  rw [List.filter_eq_nil_iff.mpr (by intro c hcmem; simp [hc c hcmem])]
  rw [List.any_eq_false.mpr (by intro c hcmem; simp [hc c hcmem])]
  simp

theorem scan_unique_state (mouse pos size : Vec2)
    (prevHead : Option MenuOption) (now : Int) (tree : List MenuOption)
    (v : MenuOption) (d : Bool) (t : Int)
    (hv : v ∈ tree)
    (hin : inRootRow mouse pos size v = true)
    (huniq : (tree.filter (fun w => inRootRow mouse pos size w)).length ≤ 1)
    (hch : ∀ w c : MenuOption,
      inChildRow mouse pos size (menuSize w.children) w c = false) :
    tree.foldl (rootScanStep mouse pos size prevHead now) ([], d, t) =
      ([v],
        if now - (if d = true ∧ prevHead ≠ some v then now else t) > 500
          then false else d,
        if d = true ∧ prevHead ≠ some v then now else t) := by
  obtain ⟨l1, l2, rfl⟩ := List.append_of_mem hv
  rw [List.filter_append, List.filter_cons_of_pos (by simp [hin])] at huniq
  have hl1 : (l1.filter (fun w => inRootRow mouse pos size w)).length = 0 := by
    simp only [List.length_append, List.length_cons] at huniq
    omega
  have hl2 : (l2.filter (fun w => inRootRow mouse pos size w)).length = 0 := by
    simp only [List.length_append, List.length_cons] at huniq
    omega
  have h1 : ∀ w ∈ l1, inRootRow mouse pos size w = false := by
    intro w hw
    have := List.filter_eq_nil_iff.mp (List.length_eq_zero.mp hl1) w hw
    simpa using this
  have h2 : ∀ w ∈ l2, inRootRow mouse pos size w = false := by
    intro w hw
    have := List.filter_eq_nil_iff.mp (List.length_eq_zero.mp hl2) w hw
    simpa using this
  rw [List.foldl_append,
    foldl_scan_skip mouse pos size prevHead now l1
      (fun w hw => ⟨h1 w hw, fun c _ => hch w c⟩),
    List.foldl_cons,
    rootScanStep_hit mouse pos size prevHead now _ v hin
      (fun c _ => hch v c),
    foldl_scan_skip mouse pos size prevHead now l2
      (fun w hw => ⟨h2 w hw, fun c _ => hch w c⟩)]
  simp

/-- C2: during the full re-scan, when the pointer lies in exactly one root
row's box, the timestamp is set to `now` exactly when the buffers are
currently disabled and the matched root differs from the previously
selected root, and the buffer flag is cleared exactly when more than 500ms
have elapsed since the (possibly just-updated) timestamp. -/
theorem claim_C2_scan_timer (m : Menu) (now : Int) (v : MenuOption)
    (hv : v ∈ m.tree)
    (hin : inRootRow m.mousePosition m.position (menuSize m.tree) v = true)
    (huniq : (m.tree.filter
        (fun w =>
          inRootRow m.mousePosition m.position (menuSize m.tree) w)).length
      ≤ 1) :
    (m.fullScan now).2.enteredRootElementTimestamp =
      (if m.disableBufferTriangles = true ∧ m.optionPath.head? ≠ some v
        then now else m.enteredRootElementTimestamp) ∧
      (m.fullScan now).2.disableBufferTriangles =
        (if now - (m.fullScan now).2.enteredRootElementTimestamp > 500
          then false else m.disableBufferTriangles) := by
  have hch : ∀ w c : MenuOption,
      inChildRow m.mousePosition m.position (menuSize m.tree)
        (menuSize w.children) w c = false :=
    fun w c =>
      root_excludes_child m.mousePosition m.position (menuSize m.tree)
        (menuSize w.children) v w c hin
  have key := scan_unique_state m.mousePosition m.position (menuSize m.tree)
    m.optionPath.head? now m.tree v m.disableBufferTriangles
    m.enteredRootElementTimestamp hv hin huniq hch
  simp only [Menu.fullScan, key]
  simp

/-- A laid-out childless root option at offset 12. -/
def optA : MenuOption := .mk .Default "a" "actionA" "" [] 12 true

/-- A laid-out childless root option at offset 32. -/
def optB : MenuOption := .mk .Default "b" "actionB" "" [] 32 true

/-- Concrete state for the C2 witness: pointer in `optA`'s row box,
buffers disabled, no previous selection. -/
def mC2 : Menu := mkMenu ⟨0, 0⟩ ⟨5, 10⟩ [optA, optB] true [] true 0

/-- Witness for C2: in `mC2` the pointer lies only in `optA`'s row box; the
timer is recorded (buffers disabled and `optA` differs from the empty
previous selection) and the buffer flag follows the 500ms comparison
against the new timestamp. -/
theorem claim_C2_witness :
    (mC2.fullScan 1000).2.enteredRootElementTimestamp =
      (if mC2.disableBufferTriangles = true ∧
          mC2.optionPath.head? ≠ some optA
        then 1000 else mC2.enteredRootElementTimestamp) ∧
      (mC2.fullScan 1000).2.disableBufferTriangles =
        (if 1000 - (mC2.fullScan 1000).2.enteredRootElementTimestamp > 500
          then false else mC2.disableBufferTriangles) :=
  claim_C2_scan_timer mC2 1000 optA (by decide) (by decide) (by decide)

theorem stickyFold_eq (mouse pos size childSize : Vec2) (root : MenuOption)
    (cs : List MenuOption) :
    ∀ r0 : List MenuOption,
      cs.foldl
        (fun acc c =>
          if inChildRow mouse pos size childSize root c then acc ++ [root, c]
          else acc) r0 =
        r0 ++
          (cs.filter
              (fun c => inChildRow mouse pos size childSize root c)).flatMap
            (fun c => [root, c]) := by
  induction cs with
  | nil => intro r0; simp
  | cons c cs ih =>
      intro r0
      simp only [List.foldl_cons]
      cases hb : inChildRow mouse pos size childSize root c with
      | false => simp [hb, ih]
      | true => simp [hb, ih]

/-- C10: in the sticky-submenu fast path, a pointer inside the submenu's
bounding box but inside no child row's box yields the empty selection path
(not `[root]`), and `disableBufferTriangles` is nevertheless set to true. -/
theorem claim_C10_childmenu_band (m : Menu) (now : Int) (root : MenuOption)
    (rest : List MenuOption) (hpath : m.optionPath = root :: rest)
    (hne : root.children.isEmpty = false)
    (hmenu : pointInBox m.mousePosition
      (add m.position ⟨(menuSize m.tree).x, root.computedOffset - 10⟩)
      (menuSize root.children) = true)
    (hnone : ∀ c ∈ root.children,
      inChildRow m.mousePosition m.position (menuSize m.tree)
        (menuSize root.children) root c = false) :
    (m.optionPathUnderMouse now).1 = [] ∧
      (m.optionPathUnderMouse now).2.disableBufferTriangles = true := by
  have hfilter : root.children.filter
      (fun c => inChildRow m.mousePosition m.position (menuSize m.tree)
        (menuSize root.children) root c) = [] :=
    List.filter_eq_nil_iff.mpr (fun c hc => by simp [hnone c hc])
  simp only [Menu.optionPathUnderMouse, hpath, hne, hmenu, stickyFold_eq,
    hfilter, Bool.false_eq_true, if_false, Bool.or_true, Bool.true_or,
    if_true, List.flatMap_nil, List.nil_append, List.append_nil]
  simp

/-- First child (offset 12) of the C10 witness root. -/
def c10a : MenuOption := .mk .Default "A" "actA" "" [] 12 true

/-- Second child (offset 32) of the C10 witness root. -/
def c10b : MenuOption := .mk .Default "B" "actB" "" [] 32 true

/-- A root option with an open submenu, laid out at offset 158. -/
def root10 : MenuOption := .mk .Default "Snap" "" "" [c10a, c10b] 158 true

/-- Concrete state for the C10 witness: the submenu of `root10` is open and
the pointer sits in the 2px band at the very top of the submenu box, above
the first child row. -/
def m10 : Menu := mkMenu ⟨0, 0⟩ ⟨250, 149⟩ [root10] true [root10] false 0

/-- Witness for C10: in `m10` the computed path is empty and the buffer
flag is forced on. -/
theorem claim_C10_witness :
    (m10.optionPathUnderMouse 0).1 = [] ∧
      (m10.optionPathUnderMouse 0).2.disableBufferTriangles = true :=
  claim_C10_childmenu_band m10 0 root10 [] rfl (by decide) (by decide)
    (by decide)

/-- A root whose single child row overlaps `r7b`'s child row. -/
def c7a : MenuOption := .mk .Default "c1" "act1" "" [] 12 true

def r7a : MenuOption := .mk .Default "r1" "" "" [c7a] 12 true

def c7b : MenuOption := .mk .Default "c2" "act2" "" [] 12 true

def r7b : MenuOption := .mk .Default "r2" "" "" [c7b] 12 true

/-- A freshly constructed menu (as the constructor leaves it). -/
def m7base : Menu := mkMenu ⟨0, 0⟩ ⟨0, 0⟩ [] false [] true 0

/-- The reachable state of the C7 counterexample: show the menu, publish a
tree in which two distinct roots' child rows occupy the same box, and move
the pointer into that box. -/
def m7 : Menu :=
  ((m7base.show (fun _ => "") true).setOptionTree
    [r7a, r7b]).setMousePosition ⟨210, 10⟩ 0

/-- C7 counterexample: in `m7` the hit-test produced the selection path
`[r7a, c7a, r7b, c7b]` of length 4, refuting the claim that every produced
path has length 0, 1 or 2. -/
theorem claim_C7_counterexample :
    m7.optionPath.length = 4 ∧ ¬m7.optionPath.length ≤ 2 := by
  constructor <;> decide

theorem scanList_nil_of (mouse pos size : Vec2) (l : List MenuOption)
    (hr : ∀ w ∈ l, inRootRow mouse pos size w = false)
    (hc : ∀ w ∈ l, ∀ c ∈ w.children,
      inChildRow mouse pos size (menuSize w.children) w c = false) :
    scanList mouse pos size l = [] := by
  induction l with
  | nil => rfl
  | cons w rest ih =>
      have hfilter : w.children.filter
          (fun c => inChildRow mouse pos size (menuSize w.children) w c) =
            [] :=
        List.filter_eq_nil_iff.mpr
          (fun c hcm => by simp [hc w (by simp) c hcm])
      simp only [scanList, hr w (by simp), hfilter, Bool.false_eq_true,
        if_false, List.flatMap_nil, List.nil_append, List.append_nil]
      exact ih (fun w hw => hr w (by simp [hw]))
        (fun w hw => hc w (by simp [hw]))

theorem scanList_shape (mouse pos size : Vec2) (l : List MenuOption)
    (hroot : (l.filter (fun v => inRootRow mouse pos size v)).length ≤ 1)
    (hchild : (l.map (fun v =>
        (v.children.filter
          (fun c => inChildRow mouse pos size (menuSize v.children) v c)).length)).sum
      ≤ 1) :
    scanList mouse pos size l = [] ∨
      (∃ v ∈ l, scanList mouse pos size l = [v]) ∨
      (∃ v ∈ l, ∃ c ∈ v.children, scanList mouse pos size l = [v, c]) := by
  induction l with
  | nil => left; rfl
  | cons v rest ih =>
      by_cases hr : inRootRow mouse pos size v = true
      · -- a root row matched: no child row can match anywhere, and no other
        -- root row of the rest can match either
        have hcall : ∀ w c : MenuOption,
            inChildRow mouse pos size (menuSize w.children) w c = false :=
          fun w c =>
            root_excludes_child mouse pos size (menuSize w.children) v w c hr
        rw [List.filter_cons_of_pos (by simp [hr])] at hroot
        have hrest : ∀ w ∈ rest, inRootRow mouse pos size w = false := by
          intro w hw
          have hlen : (rest.filter
              (fun v => inRootRow mouse pos size v)).length = 0 := by
            simp only [List.length_cons] at hroot
            omega
          have := List.filter_eq_nil_iff.mp (List.length_eq_zero.mp hlen) w hw
          simpa using this
        have hfilter : v.children.filter
            (fun c => inChildRow mouse pos size (menuSize v.children) v c) =
              [] :=
          List.filter_eq_nil_iff.mpr (fun c hcm => by simp [hcall v c])
        right; left
        refine ⟨v, by simp, ?_⟩
        simp only [scanList, hr, if_true, hfilter, List.flatMap_nil,
          List.append_nil,
          scanList_nil_of mouse pos size rest hrest
            (fun w _ => fun c _ => hcall w c)]
      · have hrb : inRootRow mouse pos size v = false :=
          Bool.not_eq_true _ ▸ (by simpa using hr)
        by_cases hc0 : (v.children.filter
            (fun c => inChildRow mouse pos size (menuSize v.children)
              v c)).length = 0
        · -- head contributes nothing
          have hfilter : v.children.filter
              (fun c => inChildRow mouse pos size (menuSize v.children)
                v c) = [] := List.length_eq_zero.mp hc0
          have hstep : scanList mouse pos size (v :: rest) =
              scanList mouse pos size rest := by
            simp [scanList, hrb, hfilter]
          rw [hstep]
          have hroot' : (rest.filter
              (fun v => inRootRow mouse pos size v)).length ≤ 1 := by
            rw [List.filter_cons_of_neg (by simp [hrb])] at hroot
            exact hroot
          have hchild' : (rest.map (fun v =>
              (v.children.filter
                (fun c => inChildRow mouse pos size (menuSize v.children)
                  v c)).length)).sum ≤ 1 := by
            simp only [List.map_cons, List.sum_cons, hc0] at hchild
            omega
          rcases ih hroot' hchild' with h | ⟨w, hw, hh⟩ | ⟨w, hw, c, hcm, hh⟩
          · left; exact h
          · right; left; exact ⟨w, by simp [hw], hh⟩
          · right; right; exact ⟨w, by simp [hw], c, hcm, hh⟩
        · -- the head has the unique child hit
          have hone : (v.children.filter
              (fun c => inChildRow mouse pos size (menuSize v.children)
                v c)).length = 1 := by
            simp only [List.map_cons, List.sum_cons] at hchild
            omega
          obtain ⟨c, hc⟩ := List.length_eq_one.mp hone
          have hcmem : c ∈ v.children :=
            List.mem_of_mem_filter (hc ▸ (by simp : c ∈ [c]))
          have hcpred : inChildRow mouse pos size (menuSize v.children) v c =
              true := by
            have := List.of_mem_filter (hc ▸ (by simp : c ∈ [c]))
            simpa using this
          have hrestchild : ∀ w ∈ rest, ∀ d ∈ w.children,
              inChildRow mouse pos size (menuSize w.children) w d = false := by
            intro w hw d hd
            by_contra hq
            have hdt : inChildRow mouse pos size (menuSize w.children) w d =
                true := by simpa using hq
            have hlen0 : (rest.map (fun v =>
                (v.children.filter
                  (fun c => inChildRow mouse pos size (menuSize v.children)
                    v c)).length)).sum = 0 := by
              simp only [List.map_cons, List.sum_cons, hone] at hchild
              omega
            have hw0 : ∀ x ∈ rest.map (fun v =>
                (v.children.filter
                  (fun c => inChildRow mouse pos size (menuSize v.children)
                    v c)).length), x = 0 :=
              (List.sum_eq_zero_iff).mp hlen0
            have hwl : (w.children.filter
                (fun c => inChildRow mouse pos size (menuSize w.children)
                  w c)).length = 0 :=
              hw0 _ (List.mem_map_of_mem _ hw)
            have := List.filter_eq_nil_iff.mp (List.length_eq_zero.mp hwl) d hd
            exact this (by simpa using hdt)
          have hrestroot : ∀ w ∈ rest, inRootRow mouse pos size w = false :=
            fun w _ =>
              child_excludes_root mouse pos size (menuSize v.children) w v c
                hcpred
          right; right
          refine ⟨v, by simp, c, hcmem, ?_⟩
          simp only [scanList, hrb, Bool.false_eq_true, if_false, hc,
            scanList_nil_of mouse pos size rest hrestroot hrestchild]
          simp

theorem flatMap_pairs_shape (root : MenuOption) (cs : List MenuOption)
    (pred : MenuOption → Bool) (h : (cs.filter pred).length ≤ 1) :
    (cs.filter pred).flatMap (fun c => [root, c]) = [] ∨
      ∃ c ∈ cs, (cs.filter pred).flatMap (fun c => [root, c]) = [root, c] := by
  cases hf : cs.filter pred with
  | nil => left; simp
  | cons c tl =>
      cases tl with
      | nil =>
          right
          exact ⟨c, List.mem_of_mem_filter (hf ▸ (by simp : c ∈ [c])),
            by simp⟩
      | cons d tl2 => simp [hf] at h

theorem pathUnderMouse_fst_cases (m : Menu) (now : Int) :
    (m.optionPathUnderMouse now).1 =
        scanList m.mousePosition m.position (menuSize m.tree) m.tree ∨
      (∃ root rest, m.optionPath = root :: rest ∧
        (m.optionPathUnderMouse now).1 = [root]) ∨
      (∃ root rest, m.optionPath = root :: rest ∧
        (m.optionPathUnderMouse now).1 =
          (root.children.filter
              (fun c => inChildRow m.mousePosition m.position
                (menuSize m.tree) (menuSize root.children) root c)).flatMap
            (fun c => [root, c])) := by
  cases hp : m.optionPath with
  | nil =>
      left
      simp only [Menu.optionPathUnderMouse, hp, fullScan_fst]
  | cons root rest =>
      simp only [Menu.optionPathUnderMouse, hp]
      cases hne : root.children.isEmpty with
      | true => left; simp only [if_true, fullScan_fst]
      | false =>
          simp only [Bool.false_eq_true, if_false]
          by_cases hcm : pointInBox m.mousePosition
              (add m.position
                ⟨(menuSize m.tree).x, root.computedOffset - 10⟩)
              (menuSize root.children) = true
          · -- the union is true because inChildMenu is
            right; right
            refine ⟨root, rest, rfl, ?_⟩
            simp only [hcm, Bool.or_true, Bool.true_or, if_true,
              stickyFold_eq, List.nil_append]
          · have hcf : pointInBox m.mousePosition
                (add m.position
                  ⟨(menuSize m.tree).x, root.computedOffset - 10⟩)
                (menuSize root.children) = false := by
              simpa using hcm
            simp only [hcf, Bool.or_false, Bool.false_or]
            by_cases hu : (pointInBox m.mousePosition
                ⟨m.position.x, m.position.y + root.computedOffset⟩
                ⟨(menuSize m.tree).x, offsetOf root⟩ ||
              (if m.disableBufferTriangles then false
                else pointInTriangle m.mousePosition
                  (upperBufferTriangle
                    ⟨m.position.x, m.position.y + root.computedOffset - 10⟩
                    (menuSize m.tree))) ||
              (if m.disableBufferTriangles then false
                else pointInTriangle m.mousePosition
                  (lowerBufferTriangle
                    (add ⟨m.position.x,
                      m.position.y + root.computedOffset - 10⟩
                      ⟨0, offsetOf root⟩)
                    (menuSize m.tree) (menuSize root.children))) ||
              pointInBox m.mousePosition
                (add m.position
                  ⟨(menuSize m.tree).x - 15, root.computedOffset - 35⟩)
                (add (menuSize root.children) ⟨30, 50⟩)) = true
            · right; left
              refine ⟨root, rest, rfl, ?_⟩
              simp only [hu, if_true, Bool.false_eq_true, if_false]
            · left
              have huf : (pointInBox m.mousePosition
                  ⟨m.position.x, m.position.y + root.computedOffset⟩
                  ⟨(menuSize m.tree).x, offsetOf root⟩ ||
                (if m.disableBufferTriangles then false
                  else pointInTriangle m.mousePosition
                    (upperBufferTriangle
                      ⟨m.position.x, m.position.y + root.computedOffset - 10⟩
                      (menuSize m.tree))) ||
                (if m.disableBufferTriangles then false
                  else pointInTriangle m.mousePosition
                    (lowerBufferTriangle
                      (add ⟨m.position.x,
                        m.position.y + root.computedOffset - 10⟩
                        ⟨0, offsetOf root⟩)
                      (menuSize m.tree) (menuSize root.children))) ||
                pointInBox m.mousePosition
                  (add m.position
                    ⟨(menuSize m.tree).x - 15, root.computedOffset - 35⟩)
                  (add (menuSize root.children) ⟨30, 50⟩)) = false := by
                simpa using hu
              simp only [huf, Bool.false_eq_true, if_false, fullScan_fst]

/-- C7 amended: the hit-test path has length 0, 1, or 2 — and a length-2
path is a root followed by one of its own children — provided at most one
root row box and at most one child row box contain the pointer, and (in
the sticky fast path) at most one of the sticky root's child rows does;
all of this holds for laid-out trees with disjoint rows, but
`setOptionTree` can publish overlapping rows that defeat it. -/
theorem claim_C7_amended (m : Menu) (now : Int)
    (hroot : (m.tree.filter
        (fun v => inRootRow m.mousePosition m.position
          (menuSize m.tree) v)).length ≤ 1)
    (hchild : (m.tree.map (fun v =>
        (v.children.filter
          (fun c => inChildRow m.mousePosition m.position (menuSize m.tree)
            (menuSize v.children) v c)).length)).sum ≤ 1)
    (hsticky : ∀ root rest, m.optionPath = root :: rest →
      (root.children.filter
        (fun c => inChildRow m.mousePosition m.position (menuSize m.tree)
          (menuSize root.children) root c)).length ≤ 1) :
    (m.optionPathUnderMouse now).1.length ≤ 2 ∧
      (∀ a b, (m.optionPathUnderMouse now).1 = [a, b] → b ∈ a.children) := by
  rcases pathUnderMouse_fst_cases m now with h | ⟨root, rest, hp, h⟩ |
    ⟨root, rest, hp, h⟩
  · rcases scanList_shape m.mousePosition m.position (menuSize m.tree) m.tree
        hroot hchild with hs | ⟨v, _, hs⟩ | ⟨v, _, c, hcm, hs⟩
    · rw [h, hs]
      exact ⟨by simp, by intro a b hab; simp at hab⟩
    · rw [h, hs]
      exact ⟨by simp, by intro a b hab; simp at hab⟩
    · rw [h, hs]
      refine ⟨by simp, ?_⟩
      intro a b hab
      rw [List.cons.injEq, List.cons.injEq] at hab
      obtain ⟨rfl, rfl, -⟩ := hab
      exact hcm
  · rw [h]
    exact ⟨by simp, by intro a b hab; simp at hab⟩
  · rcases flatMap_pairs_shape root root.children
        (fun c => inChildRow m.mousePosition m.position (menuSize m.tree)
          (menuSize root.children) root c)
        (hsticky root rest hp) with hs | ⟨c, hcm, hs⟩
    · rw [h, hs]
      exact ⟨by simp, by intro a b hab; simp at hab⟩
    · rw [h, hs]
      refine ⟨by simp, ?_⟩
      intro a b hab
      rw [List.cons.injEq, List.cons.injEq] at hab
      obtain ⟨rfl, rfl, -⟩ := hab
      exact hcm

/-- Concrete state for the C7 witness: disjoint laid-out rows, pointer in
`optB`'s row. -/
def m7w : Menu := mkMenu ⟨0, 0⟩ ⟨5, 30⟩ [optA, optB] true [] true 0

/-- Witness for C7 (amended) on a tree with disjoint rows. -/
theorem claim_C7_witness : (m7w.optionPathUnderMouse 0).1.length ≤ 2 :=
  (claim_C7_amended m7w 0 (by decide) (by decide)
    (by intro root rest h; simp [m7w, mkMenu] at h)).1

theorem pathUnderMouse_snd_cases (m : Menu) (now : Int) :
    (m.optionPathUnderMouse now).2 = (m.fullScan now).2 ∨
      (m.optionPathUnderMouse now).2 =
        { m with disableBufferTriangles := true } ∨
      (m.optionPathUnderMouse now).2 = m := by
  cases hp : m.optionPath with
  | nil =>
      left
      simp only [Menu.optionPathUnderMouse, hp]
  | cons root rest =>
      simp only [Menu.optionPathUnderMouse, hp]
      cases hne : root.children.isEmpty with
      | true => left; simp only [if_true]
      | false =>
          simp only [Bool.false_eq_true, if_false]
          by_cases hcm : pointInBox m.mousePosition
              (add m.position
                ⟨(menuSize m.tree).x, root.computedOffset - 10⟩)
              (menuSize root.children) = true
          · right; left
            simp only [hcm, Bool.or_true, Bool.true_or, if_true]
          · have hcf : pointInBox m.mousePosition
                (add m.position
                  ⟨(menuSize m.tree).x, root.computedOffset - 10⟩)
                (menuSize root.children) = false := by
              simpa using hcm
            simp only [hcf, Bool.or_false, Bool.false_or]
            by_cases hu : (pointInBox m.mousePosition
                ⟨m.position.x, m.position.y + root.computedOffset⟩
                ⟨(menuSize m.tree).x, offsetOf root⟩ ||
              (if m.disableBufferTriangles then false
                else pointInTriangle m.mousePosition
                  (upperBufferTriangle
                    ⟨m.position.x, m.position.y + root.computedOffset - 10⟩
                    (menuSize m.tree))) ||
              (if m.disableBufferTriangles then false
                else pointInTriangle m.mousePosition
                  (lowerBufferTriangle
                    (add ⟨m.position.x,
                      m.position.y + root.computedOffset - 10⟩
                      ⟨0, offsetOf root⟩)
                    (menuSize m.tree) (menuSize root.children))) ||
              pointInBox m.mousePosition
                (add m.position
                  ⟨(menuSize m.tree).x - 15, root.computedOffset - 35⟩)
                (add (menuSize root.children) ⟨30, 50⟩)) = true
            · right; right
              simp only [hu, if_true, Bool.false_eq_true, if_false]
            · have huf : (pointInBox m.mousePosition
                  ⟨m.position.x, m.position.y + root.computedOffset⟩
                  ⟨(menuSize m.tree).x, offsetOf root⟩ ||
                (if m.disableBufferTriangles then false
                  else pointInTriangle m.mousePosition
                    (upperBufferTriangle
                      ⟨m.position.x, m.position.y + root.computedOffset - 10⟩
                      (menuSize m.tree))) ||
                (if m.disableBufferTriangles then false
                  else pointInTriangle m.mousePosition
                    (lowerBufferTriangle
                      (add ⟨m.position.x,
                        m.position.y + root.computedOffset - 10⟩
                        ⟨0, offsetOf root⟩)
                      (menuSize m.tree) (menuSize root.children))) ||
                pointInBox m.mousePosition
                  (add m.position
                    ⟨(menuSize m.tree).x - 15, root.computedOffset - 35⟩)
                  (add (menuSize root.children) ⟨30, 50⟩)) = false := by
                simpa using hu
              left
              simp only [huf, Bool.false_eq_true, if_false]

theorem pathUnderMouse_fields (m : Menu) (now : Int) :
    (m.optionPathUnderMouse now).2.position = m.position ∧
      (m.optionPathUnderMouse now).2.tree = m.tree ∧
      (m.optionPathUnderMouse now).2.visible = m.visible ∧
      (m.optionPathUnderMouse now).2.mousePosition = m.mousePosition ∧
      (m.optionPathUnderMouse now).2.optionPath = m.optionPath := by
  rcases pathUnderMouse_snd_cases m now with h | h | h <;> rw [h] <;>
    simp [Menu.fullScan]

/-- C6: for a visible menu, when `setMousePosition` computes an empty
selection path the menu ends up hidden exactly when the pointer lies
outside the padded box (anchor minus `(40, 40)`, size plus `(80, 150)`);
inside it the menu stays visible. -/
theorem claim_C6_autodismiss (m : Menu) (v : Vec2) (now : Int)
    (hvis : m.visible = true)
    (hempty :
      (({ m with mousePosition := v } : Menu).optionPathUnderMouse now).1 =
        []) :
    ((m.setMousePosition v now).visible = false ↔
      pointInBox v (add m.position ⟨-40, -40⟩)
        (add (menuSize m.tree) ⟨80, 150⟩) = false) := by
  obtain ⟨hpos, htree, hvis2, hmouse, -⟩ :=
    pathUnderMouse_fields ({ m with mousePosition := v } : Menu) now
  rw [hvis] at hempty hpos htree hvis2 hmouse
  simp only [Menu.setMousePosition, hvis, hempty, Bool.not_true,
    Bool.false_eq_true, if_false, List.length_nil, hmouse, hpos, htree]
  cases hb : pointInBox v (add m.position ⟨-40, -40⟩)
      (add (menuSize m.tree) ⟨80, 150⟩) with
  | true => simp [hb, hvis2, hvis]
  | false => simp [hb, Menu.hide]

/-- Concrete state for the C6 witness: visible menu, empty tree. -/
def m6 : Menu := mkMenu ⟨0, 0⟩ ⟨0, 0⟩ [] true [] true 0

/-- Witness for C6: the pointer far away from the menu dismisses it. -/
theorem claim_C6_witness :
    (m6.setMousePosition ⟨1000, 1000⟩ 5).visible = false ↔
      pointInBox ⟨1000, 1000⟩ (add m6.position ⟨-40, -40⟩)
        (add (menuSize m6.tree) ⟨80, 150⟩) = false :=
  claim_C6_autodismiss m6 ⟨1000, 1000⟩ 5 rfl (by decide)

/-- C1: for a visible menu, a click hides the menu exactly when the freshly
recomputed path is a valid resolved selection (length 1 with a childless
root, or length 2), in which case it returns the selected option's action
when enabled and the empty string when disabled; in every other case it
returns the empty string and the menu stays visible. -/
theorem claim_C1_click_resolution (m : Menu) (v : Vec2) (now : Int)
    (hvis : m.visible = true) :
    ((m.click v now).2.visible = false ↔
      validResolved
        (({ m with mousePosition := v } : Menu).optionPathUnderMouse now).1 =
        true) ∧
      (validResolved
          (({ m with mousePosition := v } : Menu).optionPathUnderMouse
            now).1 = true →
        (m.click v now).1 =
          (if ((({ m with mousePosition := v } : Menu).optionPathUnderMouse
                now).1.getLastD default).enabled = true
            then ((({ m with mousePosition := v } :
                Menu).optionPathUnderMouse now).1.getLastD default).action
            else "")) ∧
      (validResolved
          (({ m with mousePosition := v } : Menu).optionPathUnderMouse
            now).1 = false →
        (m.click v now).1 = "" ∧ (m.click v now).2.visible = true) := by
  obtain ⟨-, -, hvis2, -, -⟩ :=
    pathUnderMouse_fields ({ m with mousePosition := v } : Menu) now
  rw [hvis] at hvis2
  simp only [Menu.click, hvis, if_true]
  generalize hq : ({ m with mousePosition := v, visible := true } :
    Menu).optionPathUnderMouse now = q at *
  obtain ⟨p, m2⟩ := q
  have hvis3 : m2.visible = true := hvis2
  by_cases hnil : p = []
  · subst hnil
    simp [validResolved, hvis3]
  · have hlen : p.length ≠ 0 := by
      simpa [List.length_eq_zero] using hnil
    by_cases hval : validResolved p = true
    · have hvalP : p.length = 1 ∧ (p.head?.getD default).children = [] ∨
          p.length = 2 := by simpa [validResolved] using hval
      simp only [hlen, hvalP, validResolved, Menu.hide, apply_ite]
      simp [hlen, hvalP, validResolved, Menu.hide, apply_ite]
      refine ⟨?_, ?_⟩
      · by_cases he : (p.getLast?.getD default).enabled = true
        · simp [he]
        · simp [he]
      · rcases hvalP with ⟨h1, hc⟩ | h2
        · intro himp; exact absurd hc (himp h1)
        · intro h9i; exact h2
    · have hvalP : ¬(p.length = 1 ∧ (p.head?.getD default).children = [] ∨
          p.length = 2) := by simpa [validResolved] using hval
      simp [hlen, hvalP, validResolved, hvis3]

/-- Concrete state for the C1 witness: a visible menu with a single
childless enabled option whose row contains the click point. -/
def m1w : Menu := mkMenu ⟨0, 0⟩ ⟨0, 0⟩ [optA] true [] true 0

/-- Witness for C1: clicking inside `optA`'s row resolves, hides the menu
and returns `optA`'s action. -/
theorem claim_C1_witness :
    ((m1w.click ⟨5, 10⟩ 0).2.visible = false ↔
      validResolved
        (({ m1w with mousePosition := ⟨5, 10⟩ } :
          Menu).optionPathUnderMouse 0).1 = true) ∧
      (validResolved
          (({ m1w with mousePosition := ⟨5, 10⟩ } :
            Menu).optionPathUnderMouse 0).1 = true →
        (m1w.click ⟨5, 10⟩ 0).1 =
          (if ((({ m1w with mousePosition := ⟨5, 10⟩ } :
                Menu).optionPathUnderMouse 0).1.getLastD default).enabled =
              true
            then ((({ m1w with mousePosition := ⟨5, 10⟩ } :
                Menu).optionPathUnderMouse 0).1.getLastD default).action
            else "")) ∧
      (validResolved
          (({ m1w with mousePosition := ⟨5, 10⟩ } :
            Menu).optionPathUnderMouse 0).1 = false →
        (m1w.click ⟨5, 10⟩ 0).1 = "" ∧
          (m1w.click ⟨5, 10⟩ 0).2.visible = true) :=
  claim_C1_click_resolution m1w ⟨5, 10⟩ 0 rfl
